import Mathlib

/-!
Verification of the runtime-provisioning bootstrapper (claude_ssh_mcp).

The definitions below are a shallow embedding of the Python source file
src/python-package/claude_ssh_mcp/__init__.py.  Pure string computations
(platform mapping, download-URL construction) become Lean string functions;
the stateful install/delegation flow becomes explicit state passing over a
model of the filesystem and effect counters.  External effects (the HTTP
download succeeding, the archive extracting, the child process exit code)
are oracles carried in an environment record.
-/

namespace ClaudeSshMcp

/-- Pinned runtime version, from the source constant NODE_VERSION. -/
def NODE_VERSION : String := "20.11.0"

/-- Architecture-token mapping inlined in get_node_download_url in the source:
x86_64/amd64 mapped to x64, arm64/aarch64 to arm64, i386/i686/x86 to x86,
anything else defaults to x64. -/
def node_arch (machine : String) : String :=
  if machine = "x86_64" ∨ machine = "amd64" then "x64"
  else if machine = "arm64" ∨ machine = "aarch64" then "arm64"
  else if machine = "i386" ∨ machine = "i686" ∨ machine = "x86" then "x86"
  else "x64"

/-- get_node_download_url from the source: three-way branch on the lowered
OS name, building the nodejs.org distribution URL. -/
def get_node_download_url (system machine : String) : String :=
  let arch := node_arch machine
  if system = "windows" then
    "https://nodejs.org/dist/v" ++ NODE_VERSION ++ "/node-v" ++ NODE_VERSION
      ++ "-win-" ++ arch ++ ".zip"
  else if system = "darwin" then
    "https://nodejs.org/dist/v" ++ NODE_VERSION ++ "/node-v" ++ NODE_VERSION
      ++ "-darwin-" ++ arch ++ ".tar.gz"
  else
    "https://nodejs.org/dist/v" ++ NODE_VERSION ++ "/node-v" ++ NODE_VERSION
      ++ "-linux-" ++ arch ++ ".tar.xz"

/-- Modelled from the spec: the Platform Identifier's archToken table
(section 4.1 of the spec), written from the spec's words. -/
def spec_archToken (machine : String) : String :=
  if machine ∈ ["x86_64", "amd64"] then "x64"
  else if machine ∈ ["arm64", "aarch64"] then "arm64"
  else if machine ∈ ["i386", "i686", "x86"] then "x86"
  else "x64"

/-- Modelled from the spec: the Platform Identifier's osToken, drawn from
the enum of windows, darwin, linux (spec section 3). -/
def spec_osToken (system : String) : String :=
  if system = "windows" then "windows"
  else if system = "darwin" then "darwin"
  else "linux"

/-- Modelled from the spec: the Platform Identifier's archiveKind
(zip for windows, tar.gz for darwin, tar.xz for linux). -/
def spec_archiveKind (system : String) : String :=
  if system = "windows" then "zip"
  else if system = "darwin" then "tar.gz"
  else "tar.xz"

/-- Modelled from the spec: the download-URL template of claim C1, with
the os slot filled by the osToken itself. -/
def spec_download_url (system machine : String) : String :=
  "https://nodejs.org/dist/v" ++ NODE_VERSION ++ "/node-v" ++ NODE_VERSION
    ++ "-" ++ spec_osToken system ++ "-" ++ spec_archToken machine
    ++ "." ++ spec_archiveKind system

/-- The amended URL template: identical to the spec template except that the
os slot on windows holds the vendor's short token "win" rather than the
osToken "windows". -/
def amended_download_url (system machine : String) : String :=
  let osSlot := if system = "windows" then "win" else spec_osToken system
  "https://nodejs.org/dist/v" ++ NODE_VERSION ++ "/node-v" ++ NODE_VERSION
    ++ "-" ++ osSlot ++ "-" ++ spec_archToken machine
    ++ "." ++ spec_archiveKind system

lemma node_arch_cases (machine : String) :
    node_arch machine = "x64" ∨ node_arch machine = "arm64" ∨
    node_arch machine = "x86" := by
  unfold node_arch
  split_ifs <;> simp

lemma node_arch_eq_spec_archToken (machine : String) :
    node_arch machine = spec_archToken machine := by
  unfold node_arch spec_archToken
  simp only [List.mem_cons, List.mem_singleton, List.not_mem_nil, or_false]

/-- C3: the architecture mapping sends x86_64 and amd64 to x64, arm64 and
aarch64 to arm64, i386, i686 and x86 to x86, and every other value to x64;
it is a total function on strings, so no architecture string produces an
error, and its range is contained in the three tokens. -/
theorem arch_mapping_matches_spec (machine : String) :
    node_arch machine = spec_archToken machine ∧
    node_arch machine ∈ ["x64", "arm64", "x86"] := by
  refine ⟨node_arch_eq_spec_archToken machine, ?_⟩
  rcases node_arch_cases machine with h | h | h <;> simp [h]

/-- C1 counterexample: on windows with an x86_64 machine the code's URL uses
the short token "win", not the osToken "windows", so the claimed template
with the osToken in the os slot is violated. -/
theorem url_template_counterexample :
    get_node_download_url "windows" "x86_64" ≠
      spec_download_url "windows" "x86_64" := by
  decide

/-- C1 (amended): for every host platform the download URL equals the
template with distName node, version 20.11.0, the archToken and archiveKind
exactly as the spec states them, and the os slot equal to the osToken for
darwin and linux but to the short vendor token "win" on windows. -/
theorem url_matches_amended_template (system machine : String) :
    get_node_download_url system machine = amended_download_url system machine := by
  unfold get_node_download_url amended_download_url
  rw [node_arch_eq_spec_archToken]
  unfold spec_osToken spec_archiveKind
  rcases node_arch_cases machine with h | h | h <;>
    rw [node_arch_eq_spec_archToken] at h <;>
    rw [h] <;> split_ifs <;> rfl

/-- An entry in the modelled filesystem: a file with opaque content, or a
directory with named children (association list, names as stored on disk). -/
inductive FSEntry where
  | file (content : String)
  | dir (children : List (String × FSEntry))

/-- The read-only host environment an invocation runs against: platform
flag, the search-path resolver (shutil.which), an existence probe for
absolute paths (Path.exists at process start), the home directory and the
two Windows environment variables, plus the external-effect oracles used by
the install flow (whether the download and the extraction succeed, the
temp-directory contents after extraction, and the child process's exit code
as a function of the spawned command vector). -/
structure Env where
  isWindows : Bool
  which : String → Option String
  probe : String → Bool
  home : String
  programfiles : Option String
  localappdata : Option String
  downloadOk : Bool
  extractOk : Bool
  tmpItems : List (String × FSEntry)
  spawnResult : List String → Int

/-- Path join in the model: components separated by a slash (the separator
is irrelevant to every property proved here). -/
def joinPath (base name : String) : String := base ++ "/" ++ name

/-- Split a character list at every slash. -/
def splitSlash : List Char → List Char → List (List Char)
  | [], acc => [acc.reverse]
  | c :: cs, acc =>
      if c = '/' then acc.reverse :: splitSlash cs []
      else splitSlash cs (c :: acc)

/-- Path(p).parent in the model: drop the last slash-separated component. -/
def parentDir (p : String) : String :=
  String.intercalate "/"
    (((splitSlash p.data []).map (fun l => String.mk l)).dropLast)

/-- str.startswith in the model: the candidate is a character-list
initial segment of the name. -/
def str_startswith (s pre : String) : Bool :=
  pre.data.isPrefixOf s.data

/-- get_node_paths from the source: the ordered candidate base directories,
platform-specific, with the literal environment-variable defaults. -/
def get_node_paths (env : Env) : List String :=
  if env.isWindows then
    [ joinPath (joinPath env.home ".claude-ssh-mcp") "node",
      joinPath (env.programfiles.getD "C:\\Program Files") "nodejs",
      joinPath (joinPath (env.localappdata.getD "") "Programs") "node" ]
  else
    [ joinPath (joinPath env.home ".claude-ssh-mcp") "node",
      "/usr/local/bin",
      "/usr/bin",
      joinPath (joinPath env.home ".local") "bin",
      joinPath env.home (".nvm/versions/node/v" ++ NODE_VERSION ++ "/bin") ]

/-- find_node from the source: search-path lookup of the platform-correct
runtime filename, else the first candidate base directory containing it. -/
def find_node (env : Env) : Option String :=
  let node_cmd := if env.isWindows then "node.exe" else "node"
  match env.which node_cmd with
  | some p => some p
  | none =>
      (get_node_paths env).findSome? fun base =>
        let node_exe := joinPath base (if env.isWindows then "node.exe" else "node")
        if env.probe node_exe then some node_exe else none

/-- find_npx from the source: search-path lookup of the platform-correct
launcher filename, else resolve the runtime with find_node and test the
launcher as a sibling in the runtime's directory. -/
def find_npx (env : Env) : Option String :=
  let npx_cmd := if env.isWindows then "npx.cmd" else "npx"
  match env.which npx_cmd with
  | some p => some p
  | none =>
      match find_node env with
      | some node_path =>
          let npx_exe := joinPath (parentDir node_path)
            (if env.isWindows then "npx.cmd" else "npx")
          if env.probe npx_exe then some npx_exe else none
      | none => none

/-- Modelled from the spec: the launcher-locating algorithm claim C2
states — step 1 searches the process search path for the platform-correct
launcher filename, step 2 iterates the fixed ordered candidate base
directories testing for the launcher filename inside each, step 3 re-derives
the launcher as a sibling of the resolved primary runtime executable. -/
def locate_npx_claimed (env : Env) : Option String :=
  let launcher := if env.isWindows then "npx.cmd" else "npx"
  match env.which launcher with
  | some p => some p
  | none =>
      match (get_node_paths env).findSome? (fun base =>
          if env.probe (joinPath base launcher) then some (joinPath base launcher)
          else none) with
      | some p => some p
      | none =>
          match find_node env with
          | some node_path =>
              let cand := joinPath (parentDir node_path) launcher
              if env.probe cand then some cand else none
          | none => none

/-- The amended launcher-locating algorithm: step 1 searches the process
search path for the launcher filename; failing that, the primary runtime is
resolved by the full runtime locator and the launcher is tested as a sibling
of the runtime executable's directory; otherwise notFound.  The candidate
base directories are never probed for the launcher itself. -/
def locate_npx_amended (env : Env) : Option String :=
  let launcher := if env.isWindows then "npx.cmd" else "npx"
  (env.which launcher).orElse fun _ =>
    (find_node env).bind fun node_path =>
      let cand := joinPath (parentDir node_path) launcher
      if env.probe cand then some cand else none

/-- A host with nothing on the search path, where the only relevant file on
disk is the launcher sitting in the candidate directory /usr/local/bin. -/
def envLauncherOnly : Env where
  isWindows := false
  which := fun _ => none
  probe := fun s => s == "/usr/local/bin/npx"
  home := "/home/user"
  programfiles := none
  localappdata := none
  downloadOk := false
  extractOk := false
  tmpItems := []
  spawnResult := fun _ => 0

/-- C2 counterexample: with the launcher present in the candidate directory
/usr/local/bin but absent from the search path and the runtime absent
everywhere, the claimed three-step algorithm returns the candidate-directory
hit while the code's find_npx returns notFound — the code never iterates the
candidate base directories for the launcher. -/
theorem find_npx_counterexample :
    find_npx envLauncherOnly = none ∧
    locate_npx_claimed envLauncherOnly = some "/usr/local/bin/npx" := by
  constructor <;> rfl

/-- C2 (amended): locating the companion launcher searches the process
search path for the platform-correct launcher filename, and failing that
resolves the primary runtime via the full runtime locator and tests the
launcher as a sibling of the runtime executable's directory, returning
notFound only if that also fails; the candidate base directories are not
probed for the launcher itself. -/
theorem find_npx_matches_amended (env : Env) :
    find_npx env = locate_npx_amended env := by
  unfold find_npx locate_npx_amended
  cases h : env.which (if env.isWindows then "npx.cmd" else "npx") with
  | some p => simp [h, Option.orElse]
  | none =>
      cases h2 : find_node env with
      | some q => simp [h, h2, Option.orElse]
      | none => simp [h, h2, Option.orElse]

/-- Look up a directory entry by name (Path existence within the modelled
install directory). -/
def lookupEntry (d : List (String × FSEntry)) (n : String) : Option FSEntry :=
  match d.find? (fun e => e.1 == n) with
  | some e => some e.2
  | none => none

/-- Remove every binding of a name from a directory listing (rmtree for a
directory entry, unlink for a file entry: both delete the binding). -/
def removeEntry (d : List (String × FSEntry)) (n : String) : List (String × FSEntry) :=
  d.filter (fun e => e.1 != n)

/-- The normalized move of one entry: remove any same-named destination
binding, then append the incoming entry. -/
def setEntry (d : List (String × FSEntry)) (n : String) (e : FSEntry) :
    List (String × FSEntry) :=
  removeEntry d n ++ [(n, e)]

/-- One iteration of the source's Windows move loop: if the destination
exists it is rmtree'd when a directory and unlinked when a file, then
shutil.move brings the source entry in. -/
def moveItemWindows (d : List (String × FSEntry)) (it : String × FSEntry) :
    List (String × FSEntry) :=
  let cleared :=
    match lookupEntry d it.1 with
    | some (FSEntry.dir _) => removeEntry d it.1
    | some (FSEntry.file _) => removeEntry d it.1
    | none => d
  cleared ++ [it]

/-- One iteration of the source's Unix move loop (its body is identical to
the Windows branch in the source). -/
def moveItemUnix (d : List (String × FSEntry)) (it : String × FSEntry) :
    List (String × FSEntry) :=
  let cleared :=
    match lookupEntry d it.1 with
    | some (FSEntry.dir _) => removeEntry d it.1
    | some (FSEntry.file _) => removeEntry d it.1
    | none => d
  cleared ++ [it]

/-- The source's Windows move loop over every child of the extracted
directory. -/
def moveAllWindows (d items : List (String × FSEntry)) : List (String × FSEntry) :=
  items.foldl moveItemWindows d

/-- The source's Unix move loop over every child of the extracted
directory. -/
def moveAllUnix (d items : List (String × FSEntry)) : List (String × FSEntry) :=
  items.foldl moveItemUnix d

/-- The normalized move loop used in proofs. -/
def moveAll (d items : List (String × FSEntry)) : List (String × FSEntry) :=
  items.foldl (fun acc it => setEntry acc it.1 it.2) d

/-- Whether a top-level temp-directory entry is a directory whose name
starts with the distribution name (item.is_dir() and
item.name.startswith in the source). -/
def isNodeDir : String × FSEntry → Bool
  | (n, FSEntry.dir _) => str_startswith n "node-"
  | (_, FSEntry.file _) => false

/-- The source's post-extraction scan: iterate the temp directory and keep
the first directory entry whose name starts with the distribution name. -/
def findExtracted : List (String × FSEntry) → Option (String × FSEntry)
  | [] => none
  | item :: rest => if isNodeDir item then some item else findExtracted rest

/-- Children of an entry (a file has none). -/
def childrenOf : FSEntry → List (String × FSEntry)
  | FSEntry.dir cs => cs
  | FSEntry.file _ => []

/-- Existence of a relative component path inside a directory listing. -/
def existsAt (d : List (String × FSEntry)) : List String → Bool
  | [] => true
  | [n] => (lookupEntry d n).isSome
  | n :: rest =>
      match lookupEntry d n with
      | some (FSEntry.dir cs) => existsAt cs rest
      | _ => false

/-- The mutable state threaded through one invocation: the persistent
install directory (none while it has never been created), whether the
temporary download/extraction directory currently exists, effect counters
for network calls and persistent-filesystem writes, and the list of spawned
child-process command vectors. -/
structure St where
  installDir : Option (List (String × FSEntry))
  tmpAlive : Bool
  netCalls : Nat
  fsWrites : Nat
  spawned : List (List String)

/-- The errors install_nodejs can raise: the download failing, the archive
failing to extract, the extracted distribution directory missing, and the
post-move verification failing.  The spec's ExtractionFailure taxon covers
both extraction errors and the missing extracted directory. -/
inductive InstallError where
  | downloadFailure
  | extractionFailure
  | extractedDirNotFound
  | verificationFailure
deriving DecidableEq

/-- The persistent install directory path, home/.claude-ssh-mcp/node. -/
def install_dir_path (env : Env) : String :=
  joinPath (joinPath env.home ".claude-ssh-mcp") "node"

/-- The platform-specific relative path of the runtime executable inside the
install directory. -/
def node_exe_rel (isWindows : Bool) : List String :=
  if isWindows then ["node.exe"] else ["bin", "node"]

/-- The platform-specific absolute path of the runtime executable inside the
install directory. -/
def node_exe_path (env : Env) : String :=
  if env.isWindows then joinPath (install_dir_path env) "node.exe"
  else joinPath (joinPath (install_dir_path env) "bin") "node"

/-- install_nodejs from the source: create the install directory if absent,
enter the temporary-directory scope, download (one network call), extract,
select the first extracted distribution directory, move its children into
the install directory (removing same-named destination entries first),
leave the temporary scope, then verify the runtime executable exists at its
platform-specific path and return that path. -/
def install_nodejs (env : Env) (st : St) : Except InstallError String × St :=
  let mk : List (String × FSEntry) × St :=
    match st.installDir with
    | some d => (d, st)
    | none => ([], { st with installDir := some [], fsWrites := st.fsWrites + 1 })
  let d0 := mk.1
  let st1 := { mk.2 with tmpAlive := true }
  let st2 := { st1 with netCalls := st1.netCalls + 1 }
  if env.downloadOk = false then
    (Except.error InstallError.downloadFailure, { st2 with tmpAlive := false })
  else if env.extractOk = false then
    (Except.error InstallError.extractionFailure, { st2 with tmpAlive := false })
  else
    match findExtracted env.tmpItems with
    | none =>
        (Except.error InstallError.extractedDirNotFound, { st2 with tmpAlive := false })
    | some item =>
        let newDir :=
          if env.isWindows then moveAllWindows d0 (childrenOf item.2)
          else moveAllUnix d0 (childrenOf item.2)
        let st3 := { st2 with installDir := some newDir,
                              fsWrites := st2.fsWrites + 1, tmpAlive := false }
        if existsAt newDir (node_exe_rel env.isWindows) then
          (Except.ok (node_exe_path env), st3)
        else
          (Except.error InstallError.verificationFailure, st3)

/-- ensure_nodejs from the source: return the located runtime immediately
when discovery succeeds, otherwise download and install. -/
def ensure_nodejs (env : Env) (st : St) : Except InstallError String × St :=
  match find_node env with
  | some p => (Except.ok p, st)
  | none => install_nodejs env st

/-- subprocess.call in the model: record the spawned command vector and
return the child's exit code from the oracle. -/
def spawn (env : Env) (st : St) (cmd : List String) : Except InstallError Int × St :=
  (Except.ok (env.spawnResult cmd), { st with spawned := st.spawned ++ [cmd] })

/-- run_npx from the source: locate the launcher; when that fails, ensure
the runtime is installed and derive the launcher path as a sibling of the
runtime executable without testing its existence; then spawn the launcher
with the given arguments prepended by its own path. -/
def run_npx (env : Env) (st : St) (args : List String) :
    Except InstallError Int × St :=
  match find_npx env with
  | some npx_path => spawn env st (npx_path :: args)
  | none =>
      match ensure_nodejs env st with
      | (Except.error e, st') => (Except.error e, st')
      | (Except.ok node_path, st') =>
          let npx_path := joinPath (parentDir node_path)
            (if env.isWindows then "npx.cmd" else "npx")
          spawn env st' (npx_path :: args)

/-- main from the source: ensure the runtime, then exit with run_npx's
return value on the auto-confirm flag and the downstream package name. -/
def main_entry (env : Env) (st : St) : Except InstallError Int × St :=
  match ensure_nodejs env st with
  | (Except.error e, st') => (Except.error e, st')
  | (Except.ok _, st') => run_npx env st' ["-y", "claude-ssh-mcp"]

/-- install from the source: ensure the runtime, then exit with run_npx's
return value on the auto-confirm flag and the downstream package name. -/
def install_entry (env : Env) (st : St) : Except InstallError Int × St :=
  match ensure_nodejs env st with
  | (Except.error e, st') => (Except.error e, st')
  | (Except.ok _, st') => run_npx env st' ["-y", "claude-ssh-mcp"]

/-- Remove from a listing every binding whose name occurs in a name list. -/
def removeNames (d : List (String × FSEntry)) (ns : List String) :
    List (String × FSEntry) :=
  d.filter (fun e => !(ns.any (fun m => e.1 == m)))

lemma removeEntry_of_not_found (d : List (String × FSEntry)) (n : String)
    (h : lookupEntry d n = none) : removeEntry d n = d := by
  unfold lookupEntry at h
  cases hf : d.find? (fun e => e.1 == n) with
  | some e => rw [hf] at h; cases h
  | none =>
      unfold removeEntry
      apply List.filter_eq_self.mpr
      intro a ha
      have hne := List.find?_eq_none.mp hf a ha
      simp only [Bool.not_eq_true] at hne
      simp [bne, hne]

lemma moveItemWindows_eq_setEntry (d : List (String × FSEntry))
    (it : String × FSEntry) : moveItemWindows d it = setEntry d it.1 it.2 := by
  unfold moveItemWindows setEntry
  cases h : lookupEntry d it.1 with
  | some e =>
      cases e with
      | file c => rfl
      | dir cs => rfl
  | none => rw [removeEntry_of_not_found d it.1 h]

lemma moveItemUnix_eq_setEntry (d : List (String × FSEntry))
    (it : String × FSEntry) : moveItemUnix d it = setEntry d it.1 it.2 := by
  unfold moveItemUnix setEntry
  cases h : lookupEntry d it.1 with
  | some e =>
      cases e with
      | file c => rfl
      | dir cs => rfl
  | none => rw [removeEntry_of_not_found d it.1 h]

lemma moveAllWindows_eq_moveAll (items : List (String × FSEntry)) :
    ∀ d, moveAllWindows d items = moveAll d items := by
  induction items with
  | nil => intro d; rfl
  | cons it rest ih =>
      intro d
      show moveAllWindows (moveItemWindows d it) rest =
        moveAll (setEntry d it.1 it.2) rest
      rw [moveItemWindows_eq_setEntry, ih]

lemma moveAllUnix_eq_moveAll (items : List (String × FSEntry)) :
    ∀ d, moveAllUnix d items = moveAll d items := by
  induction items with
  | nil => intro d; rfl
  | cons it rest ih =>
      intro d
      show moveAllUnix (moveItemUnix d it) rest =
        moveAll (setEntry d it.1 it.2) rest
      rw [moveItemUnix_eq_setEntry, ih]

lemma removeNames_append (a b : List (String × FSEntry)) (ns : List String) :
    removeNames (a ++ b) ns = removeNames a ns ++ removeNames b ns := by
  unfold removeNames
  exact List.filter_append _ _

lemma removeNames_removeEntry (d : List (String × FSEntry)) (n : String)
    (ns : List String) :
    removeNames (removeEntry d n) ns = removeNames d (n :: ns) := by
  unfold removeNames removeEntry
  rw [List.filter_filter]
  apply List.filter_congr
  intro a _
  simp [bne, Bool.and_comm]

lemma moveAll_decompose (items : List (String × FSEntry)) :
    ∀ d, moveAll d items =
      removeNames d (items.map Prod.fst) ++ moveAll [] items := by
  induction items with
  | nil => intro d; simp [moveAll, removeNames]
  | cons it rest ih =>
      intro d
      have h1 : moveAll d (it :: rest) = moveAll (setEntry d it.1 it.2) rest := rfl
      have h2 : moveAll [] (it :: rest) = moveAll [(it.1, it.2)] rest := rfl
      rw [h1, h2, List.map_cons, ih (setEntry d it.1 it.2), ih [(it.1, it.2)]]
      have h4 : setEntry d it.1 it.2 = removeEntry d it.1 ++ [(it.1, it.2)] := rfl
      rw [h4, removeNames_append, removeNames_removeEntry, List.append_assoc]

lemma mem_moveAll_nil_names (items : List (String × FSEntry)) :
    ∀ x, x ∈ moveAll [] items →
      (items.map Prod.fst).any (fun m => x.1 == m) = true := by
  induction items with
  | nil => intro x hx; simp [moveAll] at hx
  | cons it rest ih =>
      intro x hx
      have h2 : moveAll [] (it :: rest) = moveAll [(it.1, it.2)] rest := rfl
      rw [h2, moveAll_decompose rest [(it.1, it.2)]] at hx
      rw [List.map_cons, List.any_cons]
      rcases List.mem_append.mp hx with hl | hr
      · have hmem := List.mem_filter.mp hl
        have hx1 : x = (it.1, it.2) := List.mem_singleton.mp hmem.1
        rw [hx1]
        simp
      · rw [ih x hr]
        simp

lemma removeNames_moveAll_nil (items : List (String × FSEntry)) :
    removeNames (moveAll [] items) (items.map Prod.fst) = [] := by
  unfold removeNames
  apply List.filter_eq_nil_iff.mpr
  intro a ha
  rw [mem_moveAll_nil_names items a ha]
  simp

lemma removeNames_removeNames (d : List (String × FSEntry)) (ns : List String) :
    removeNames (removeNames d ns) ns = removeNames d ns := by
  unfold removeNames
  apply List.filter_eq_self.mpr
  intro a ha
  exact (List.mem_filter.mp ha).2

/-- Installing the same list of entries twice produces the same directory
listing as installing it once. -/
lemma moveAll_idem (d items : List (String × FSEntry)) :
    moveAll (moveAll d items) items = moveAll d items := by
  rw [moveAll_decompose items (moveAll d items), moveAll_decompose items d,
      removeNames_append, removeNames_removeNames, removeNames_moveAll_nil,
      List.append_nil, ← moveAll_decompose items d]

lemma moveAllWindows_idem (d items : List (String × FSEntry)) :
    moveAllWindows (moveAllWindows d items) items = moveAllWindows d items := by
  rw [moveAllWindows_eq_moveAll, moveAllWindows_eq_moveAll, moveAll_idem,
      ← moveAllWindows_eq_moveAll]

lemma moveAllUnix_idem (d items : List (String × FSEntry)) :
    moveAllUnix (moveAllUnix d items) items = moveAllUnix d items := by
  rw [moveAllUnix_eq_moveAll, moveAllUnix_eq_moveAll, moveAll_idem,
      ← moveAllUnix_eq_moveAll]

lemma install_second_run (env : Env) (st : St) :
    (install_nodejs env (install_nodejs env st).2).1 = (install_nodejs env st).1 ∧
    ((install_nodejs env (install_nodejs env st).2).2).installDir
      = ((install_nodejs env st).2).installDir := by
  cases hdl : env.downloadOk with
  | false => cases hd : st.installDir <;> simp [install_nodejs, hd, hdl]
  | true =>
    cases hex : env.extractOk with
    | false => cases hd : st.installDir <;> simp [install_nodejs, hd, hdl, hex]
    | true =>
      cases hfe : findExtracted env.tmpItems with
      | none => cases hd : st.installDir <;> simp [install_nodejs, hd, hdl, hex, hfe]
      | some item =>
        cases hw : env.isWindows with
        | true =>
          cases hd : st.installDir with
          | none =>
            simp only [install_nodejs, hd, hdl, hex, hfe, hw, if_true,
              Bool.true_eq_false, if_false]
            cases hv : existsAt (moveAllWindows [] (childrenOf item.2))
                (node_exe_rel true) <;>
              simp [hv, moveAllWindows_idem]
          | some d =>
            simp only [install_nodejs, hd, hdl, hex, hfe, hw, if_true,
              Bool.true_eq_false, if_false]
            cases hv : existsAt (moveAllWindows d (childrenOf item.2))
                (node_exe_rel true) <;>
              simp [hv, moveAllWindows_idem]
        | false =>
          cases hd : st.installDir with
          | none =>
            simp only [install_nodejs, hd, hdl, hex, hfe, hw,
              Bool.false_eq_true, if_false]
            cases hv : existsAt (moveAllUnix [] (childrenOf item.2))
                (node_exe_rel false) <;>
              simp [hv, moveAllUnix_idem]
          | some d =>
            simp only [install_nodejs, hd, hdl, hex, hfe, hw,
              Bool.false_eq_true, if_false]
            cases hv : existsAt (moveAllUnix d (childrenOf item.2))
                (node_exe_rel false) <;>
              simp [hv, moveAllUnix_idem]

lemma setEntry_unique (d : List (String × FSEntry)) (n : String) (e : FSEntry) :
    (setEntry d n e).filter (fun x => x.1 == n) = [(n, e)] := by
  unfold setEntry removeEntry
  rw [List.filter_append, List.filter_filter]
  have h1 : d.filter (fun a => (a.1 == n) && (a.1 != n)) = [] := by
    apply List.filter_eq_nil_iff.mpr
    intro a _
    cases hcmp : a.1 == n <;> simp [bne, hcmp]
  rw [h1]
  simp

/-- C4: installation is idempotent — running the move step of the installer
a second time with the same archive leaves the install directory in the
same final state and yields the same result; each moved entry replaces any
same-named pre-existing destination entry, leaving exactly one binding of
that name (no stale entry survives, nothing is duplicated); and the move
step's Windows branch behaves identically to its Unix branch. -/
theorem install_idempotent (env : Env) (st : St) :
    ((install_nodejs env (install_nodejs env st).2).1
        = (install_nodejs env st).1 ∧
     ((install_nodejs env (install_nodejs env st).2).2).installDir
        = ((install_nodejs env st).2).installDir) ∧
    (∀ d n e, (setEntry d n e).filter (fun x => x.1 == n) = [(n, e)]) ∧
    (∀ d items, moveAllWindows d items = moveAllUnix d items) := by
  refine ⟨install_second_run env st, setEntry_unique, ?_⟩
  intro d items
  rw [moveAllWindows_eq_moveAll, moveAllUnix_eq_moveAll]

/-- C5: when the runtime locator succeeds, ensure_nodejs returns that path
with the entire state unchanged — in particular zero network calls, zero
filesystem writes, the install directory untouched and nothing spawned. -/
theorem ensure_present_no_effects (env : Env) (st : St) (p : String)
    (h : find_node env = some p) :
    ensure_nodejs env st = (Except.ok p, st) := by
  unfold ensure_nodejs
  rw [h]

/-- A host whose search path resolves the runtime and nothing else. -/
def envNodeOnPath : Env where
  isWindows := false
  which := fun s => if s == "node" then some "/usr/bin/node" else none
  probe := fun _ => false
  home := "/home/user"
  programfiles := none
  localappdata := none
  downloadOk := false
  extractOk := false
  tmpItems := []
  spawnResult := fun _ => 0

/-- The state at process start: no install directory yet, no temporary
directory, no effects performed. -/
def st0 : St :=
  { installDir := none, tmpAlive := false, netCalls := 0, fsWrites := 0,
    spawned := [] }

theorem ensure_present_no_effects_witness :
    find_node envNodeOnPath = some "/usr/bin/node" ∧
    ensure_nodejs envNodeOnPath st0 = (Except.ok "/usr/bin/node", st0) :=
  ⟨rfl, ensure_present_no_effects envNodeOnPath st0 "/usr/bin/node" rfl⟩

/-- C6: the temporary download/extraction directory does not exist after the
fetch+install flow returns, on every exit path of install_nodejs (success,
download failure, extraction failure, missing extracted directory,
verification failure), and hence after ensure_nodejs returns whenever no
temporary directory existed beforehand. -/
theorem tmpdir_absent_after_return (env : Env) (st : St) :
    ((install_nodejs env st).2).tmpAlive = false ∧
    (st.tmpAlive = false → ((ensure_nodejs env st).2).tmpAlive = false) := by
  constructor
  · cases hdl : env.downloadOk with
    | false => cases hd : st.installDir <;> simp [install_nodejs, hd, hdl]
    | true =>
      cases hex : env.extractOk with
      | false => cases hd : st.installDir <;> simp [install_nodejs, hd, hdl, hex]
      | true =>
        cases hfe : findExtracted env.tmpItems with
        | none => cases hd : st.installDir <;> simp [install_nodejs, hd, hdl, hex, hfe]
        | some item =>
          cases hd : st.installDir <;>
            simp only [install_nodejs, hd, hdl, hex, hfe, Bool.true_eq_false,
              if_false] <;>
            split <;> split <;> rfl
  · intro h0
    unfold ensure_nodejs
    cases hn : find_node env with
    | some p => exact h0
    | none =>
      cases hdl : env.downloadOk with
      | false => cases hd : st.installDir <;> simp [install_nodejs, hd, hdl]
      | true =>
        cases hex : env.extractOk with
        | false => cases hd : st.installDir <;> simp [install_nodejs, hd, hdl, hex]
        | true =>
          cases hfe : findExtracted env.tmpItems with
          | none =>
            cases hd : st.installDir <;> simp [install_nodejs, hd, hdl, hex, hfe]
          | some item =>
            cases hd : st.installDir <;>
              simp only [install_nodejs, hd, hdl, hex, hfe, Bool.true_eq_false,
                if_false] <;>
              split <;> split <;> rfl

/-- The modelled extracted runtime distribution: a bin directory holding the
runtime executable. -/
def nodeTree : FSEntry :=
  FSEntry.dir [("bin", FSEntry.dir [("node", FSEntry.file "elf")])]

/-- A host with an empty search path and empty disk where the download and
the extraction succeed, yielding one extracted distribution directory. -/
def envInstallOk : Env where
  isWindows := false
  which := fun _ => none
  probe := fun _ => false
  home := "/home/user"
  programfiles := none
  localappdata := none
  downloadOk := true
  extractOk := true
  tmpItems := [("node-v20.11.0-linux-x64", nodeTree)]
  spawnResult := fun _ => 7

theorem tmpdir_absent_after_return_witness :
    st0.tmpAlive = false ∧
    ((ensure_nodejs envInstallOk st0).2).tmpAlive = false :=
  ⟨rfl, (tmpdir_absent_after_return envInstallOk st0).2 rfl⟩

/-- The install directory listing produced by the move step: the children of
the selected extracted directory moved over the prior listing. -/
def movedDir (env : Env) (st : St) (item : String × FSEntry) :
    List (String × FSEntry) :=
  if env.isWindows then moveAllWindows (st.installDir.getD []) (childrenOf item.2)
  else moveAllUnix (st.installDir.getD []) (childrenOf item.2)

/-- C7: once the move step has run, the installer fails with a verification
failure exactly when the runtime executable is absent at its
platform-specific path inside the install directory (node.exe at the top
level on Windows, bin/node elsewhere), and returns that path when the
executable is present. -/
theorem verification_iff_absent (env : Env) (st : St) (item : String × FSEntry)
    (h1 : env.downloadOk = true) (h2 : env.extractOk = true)
    (h3 : findExtracted env.tmpItems = some item) :
    ((install_nodejs env st).1 = Except.error InstallError.verificationFailure ↔
      existsAt (movedDir env st item) (node_exe_rel env.isWindows) = false) ∧
    (existsAt (movedDir env st item) (node_exe_rel env.isWindows) = true →
      (install_nodejs env st).1 = Except.ok (node_exe_path env)) := by
  cases hd : st.installDir with
  | none =>
    cases hv : existsAt (movedDir env st item) (node_exe_rel env.isWindows) <;>
      simp only [movedDir, hd, Option.getD_none] at hv <;>
      simp [install_nodejs, movedDir, hd, h1, h2, h3, hv]
  | some d =>
    cases hv : existsAt (movedDir env st item) (node_exe_rel env.isWindows) <;>
      simp only [movedDir, hd, Option.getD_some] at hv <;>
      simp [install_nodejs, movedDir, hd, h1, h2, h3, hv]

theorem verification_iff_absent_witness :
    envInstallOk.downloadOk = true ∧ envInstallOk.extractOk = true ∧
    findExtracted envInstallOk.tmpItems =
      some ("node-v20.11.0-linux-x64", nodeTree) ∧
    (existsAt (movedDir envInstallOk st0 ("node-v20.11.0-linux-x64", nodeTree))
        (node_exe_rel envInstallOk.isWindows) = true →
      (install_nodejs envInstallOk st0).1 =
        Except.ok (node_exe_path envInstallOk)) :=
  ⟨rfl, rfl, by rfl,
   (verification_iff_absent envInstallOk st0 ("node-v20.11.0-linux-x64", nodeTree)
     rfl rfl (by rfl)).2⟩

lemma findExtracted_first_match :
    ∀ (items : List (String × FSEntry)) (item : String × FSEntry),
      findExtracted items = some item →
      isNodeDir item = true ∧
      ∃ pre post, items = pre ++ item :: post ∧ ∀ x ∈ pre, isNodeDir x = false := by
  intro items
  induction items with
  | nil => intro item h; cases h
  | cons a rest ih =>
    intro item h
    by_cases ha : isNodeDir a = true
    · rw [show findExtracted (a :: rest) = if isNodeDir a then some a
          else findExtracted rest from rfl, if_pos ha] at h
      cases h
      refine ⟨ha, [], rest, rfl, ?_⟩
      intro x hx
      cases hx
    · rw [show findExtracted (a :: rest) = if isNodeDir a then some a
          else findExtracted rest from rfl, if_neg ha] at h
      obtain ⟨hnd, pre, post, heq, hpre⟩ := ih item h
      refine ⟨hnd, a :: pre, post, by rw [heq]; rfl, ?_⟩
      intro x hx
      rcases List.mem_cons.mp hx with hxa | hxp
      · rw [hxa]
        exact Bool.not_eq_true _ ▸ eq_false_of_ne_true ha
      · exact hpre x hxp

/-- C8: after extraction the installer selects the first top-level directory
entry whose name begins with the distribution-name token, using it without
further validation; when no such directory exists the install fails with
the fatal missing-extracted-directory error (an ExtractionFailure in the
spec's taxonomy). -/
theorem extracted_dir_selection (env : Env) (st : St)
    (h1 : env.downloadOk = true) (h2 : env.extractOk = true) :
    (findExtracted env.tmpItems = none →
      (install_nodejs env st).1 =
        Except.error InstallError.extractedDirNotFound) ∧
    (∀ item, findExtracted env.tmpItems = some item →
      isNodeDir item = true ∧
      ∃ pre post, env.tmpItems = pre ++ item :: post ∧
        ∀ x ∈ pre, isNodeDir x = false) := by
  constructor
  · intro hfe
    cases hd : st.installDir <;> simp [install_nodejs, hd, h1, h2, hfe]
  · intro item hfe
    exact findExtracted_first_match env.tmpItems item hfe

theorem extracted_dir_selection_witness :
    envInstallOk.downloadOk = true ∧ envInstallOk.extractOk = true ∧
    (isNodeDir ("node-v20.11.0-linux-x64", nodeTree) = true ∧
      ∃ pre post, envInstallOk.tmpItems =
          pre ++ ("node-v20.11.0-linux-x64", nodeTree) :: post ∧
        ∀ x ∈ pre, isNodeDir x = false) :=
  ⟨rfl, rfl,
   (extracted_dir_selection envInstallOk st0 rfl rfl).2
     ("node-v20.11.0-linux-x64", nodeTree) (by rfl)⟩

/-- C9: the two public entry points are behaviorally equivalent; each first
ensures the runtime is provisioned, propagating a provisioning failure, and
otherwise delegates to run_npx on the auto-confirm flag and the downstream
package name; and when the launcher is located, run_npx spawns the argument
vector of the launcher path followed by those two arguments and returns the
spawned child's exit code verbatim. -/
theorem entry_points_equivalent (env : Env) (st : St) :
    main_entry env st = install_entry env st ∧
    (∀ e st', ensure_nodejs env st = (Except.error e, st') →
      main_entry env st = (Except.error e, st')) ∧
    (∀ p st', ensure_nodejs env st = (Except.ok p, st') →
      main_entry env st = run_npx env st' ["-y", "claude-ssh-mcp"]) ∧
    (∀ p st1, find_npx env = some p →
      run_npx env st1 ["-y", "claude-ssh-mcp"] =
        (Except.ok (env.spawnResult [p, "-y", "claude-ssh-mcp"]),
         { st1 with spawned := st1.spawned ++ [[p, "-y", "claude-ssh-mcp"]] })) := by
  refine ⟨rfl, ?_, ?_, ?_⟩
  · intro e st' h
    unfold main_entry
    rw [h]
  · intro p st' h
    unfold main_entry
    rw [h]
  · intro p st1 h
    unfold run_npx
    rw [h]
    rfl

/-- A host whose search path resolves both the runtime and the launcher. -/
def envBothOnPath : Env where
  isWindows := false
  which := fun s =>
    if s == "node" then some "/usr/bin/node"
    else if s == "npx" then some "/usr/bin/npx"
    else none
  probe := fun _ => false
  home := "/home/user"
  programfiles := none
  localappdata := none
  downloadOk := false
  extractOk := false
  tmpItems := []
  spawnResult := fun c => if c == ["/usr/bin/npx", "-y", "claude-ssh-mcp"] then 42 else 0

theorem entry_points_equivalent_witness :
    ensure_nodejs envBothOnPath st0 = (Except.ok "/usr/bin/node", st0) ∧
    find_npx envBothOnPath = some "/usr/bin/npx" ∧
    main_entry envBothOnPath st0 = run_npx envBothOnPath st0 ["-y", "claude-ssh-mcp"] ∧
    run_npx envBothOnPath st0 ["-y", "claude-ssh-mcp"] =
      (Except.ok 42,
       { st0 with spawned := [["/usr/bin/npx", "-y", "claude-ssh-mcp"]] }) :=
  ⟨rfl, rfl,
   (entry_points_equivalent envBothOnPath st0).2.2.1 "/usr/bin/node" st0 rfl,
   (entry_points_equivalent envBothOnPath st0).2.2.2 "/usr/bin/npx" st0 rfl⟩

/-- C10: when the launcher locator returns notFound, run_npx ensures the
runtime, derives the launcher path as a sibling of the runtime executable,
and passes it straight to the child-process spawn — even on a host where
that sibling path does not exist on disk, no error is raised before the
spawn and the child's exit code is returned. -/
theorem spawn_without_existence_check (env : Env) (st : St) (args : List String)
    (p : String) (st' : St)
    (h1 : find_npx env = none)
    (h2 : ensure_nodejs env st = (Except.ok p, st'))
    (h3 : env.probe (joinPath (parentDir p)
            (if env.isWindows then "npx.cmd" else "npx")) = false) :
    run_npx env st args =
      (Except.ok (env.spawnResult
        (joinPath (parentDir p) (if env.isWindows then "npx.cmd" else "npx")
          :: args)),
       { st' with spawned := st'.spawned ++
          [joinPath (parentDir p) (if env.isWindows then "npx.cmd" else "npx")
            :: args] }) := by
  unfold run_npx
  rw [h1, h2]
  rfl

/-- The state after a successful fresh install on the empty-disk host: the
install directory holds the distribution's bin tree, the temporary
directory is gone, one network call and two persistent writes happened. -/
def stAfterInstall : St :=
  { installDir := some [("bin", FSEntry.dir [("node", FSEntry.file "elf")])],
    tmpAlive := false, netCalls := 1, fsWrites := 2, spawned := [] }

theorem spawn_without_existence_check_witness :
    find_npx envInstallOk = none ∧
    ensure_nodejs envInstallOk st0 =
      (Except.ok "/home/user/.claude-ssh-mcp/node/bin/node", stAfterInstall) ∧
    envInstallOk.probe "/home/user/.claude-ssh-mcp/node/bin/npx" = false ∧
    run_npx envInstallOk st0 ["-y", "claude-ssh-mcp"] =
      (Except.ok 7,
       { stAfterInstall with spawned :=
          [["/home/user/.claude-ssh-mcp/node/bin/npx", "-y", "claude-ssh-mcp"]] }) :=
  ⟨rfl, by rfl, rfl,
   spawn_without_existence_check envInstallOk st0 ["-y", "claude-ssh-mcp"]
     "/home/user/.claude-ssh-mcp/node/bin/node" stAfterInstall rfl (by rfl) rfl⟩

end ClaudeSshMcp
